import Mathlib

/-!
Shallow embedding of `src/mot_neural_solver/models/mpn.py`, the message-passing
network core of the `trans_mot` repository, together with theorems settling the
frozen claims about it.

Modelling conventions:
* A tensor of shape `[r, c]` is a `Mat := List (List ℚ)` (a list of rows);
  a 1-D tensor is a `Vec := List ℚ`; an index tensor is a `List ℕ`.
* The feed-forward networks (`MLP` from `mot_neural_solver.models.mlp`, which
  is not part of the sources under verification, and `nn.Sequential`) are
  batch-wise row maps; they enter the model as opaque row functions
  `Vec → Vec`, applied row by row (the modules in inference mode are
  row-independent).
* `nn.Sigmoid`, the logistic function of the external tensor framework, enters
  the model as an opaque scalar map `ℚ → ℚ` (field `sigmoid` of the weights),
  exactly at the place the code applies it.
* The Python dict returned by `TimeAwareNodeModel.forward` is embedded as an
  association list `List (String × TVal)` with the same keys and values.
* Fallible code (`scatter_add_weigh` with its `raise`, the aggregation-name
  check in `_build_core_MPNet`) returns `Except String`.
-/

deriving instance DecidableEq for Except

abbrev Vec := List ℚ

abbrev Mat := List (List ℚ)

/-- Width of the rows of a matrix (the feature dimension `src.size(1)`). -/
def rowWidth (m : Mat) : ℕ := (m.headD []).length

/-- `torch.zeros(r, c)`. -/
def zeros (r c : ℕ) : Mat := List.replicate r (List.replicate c 0)

/-- Elementwise addition of two rows (`out[i][:] += ...`). -/
def addVec (a b : Vec) : Vec := List.zipWith (fun p q => p + q) a b

/-- Row-wise concatenation, `torch.cat([a, b], dim=1)`. -/
def rowCat (a b : Mat) : Mat := List.zipWith (fun p q => p ++ q) a b

/-- `x[idx]` for an index tensor `idx`: gather rows of `x`. -/
def gather (x : Mat) (idx : List ℕ) : Mat := idx.map (fun i => x.getD i [])

/-- The accumulation loop of a scatter-add: for each pair of a source row and
an index, add the row into the output at that index.  This is the semantics of
`torch_scatter.scatter_add(src, index, dim=0, dim_size=...)`, an external
capability of the tensor framework. -/
def addLoop : Mat → List ℕ → Mat → Mat
  | s :: ss, i :: rest, out => addLoop ss rest (out.set i (addVec (out.getD i []) s))
  | _, _, out => out

/-- `torch_scatter.scatter_add(src, index, dim=0, dim_size=dim_size)`. -/
def scatter_add (src : Mat) (index : List ℕ) (dim_size : ℕ) : Mat :=
  addLoop src index (zeros dim_size (rowWidth src))

/-- Number of source rows scattered onto output row `j`. -/
def groupCount (index : List ℕ) (j : ℕ) : ℕ := (index.filter (fun i => i == j)).length

/-- `torch_scatter.scatter_mean`: scatter-add divided by the (clamped) number
of contributions per output row. -/
def scatterMean (src : Mat) (index : List ℕ) (dim_size : ℕ) : Mat :=
  ((scatter_add src index dim_size).zip (List.range dim_size)).map
    (fun p => p.1.map (fun q => q / ((Nat.max (groupCount index p.2) 1 : ℕ) : ℚ)))

/-- `torch_scatter.scatter_max` (value part): elementwise maximum of the rows
scattered onto each output row; rows receiving nothing stay zero. -/
def scatterMax (src : Mat) (index : List ℕ) (dim_size : ℕ) : Mat :=
  (List.range dim_size).map (fun j =>
    match (src.zip index).filterMap (fun p => if p.2 = j then some p.1 else none) with
    | [] => List.replicate (rowWidth src) 0
    | r :: rs => rs.foldl (fun a b => List.zipWith (fun p q => max p q) a b) r)

/-- The loop of `scatter_add_weigh` (mpn.py lines 22-24):
`for i in range(src.size()[0]): out[index[i]][:] += weigh[i] * src[i][:]`. -/
def weighLoop : Mat → List ℕ → Vec → Mat → Mat
  | s :: ss, i :: rest, q :: qs, out =>
      weighLoop ss rest qs (out.set i (addVec (out.getD i []) (s.map (fun a => q * a))))
  | _, _, _, out => out

/-- `scatter_add_weigh` (mpn.py lines 10-27).  The output size along `dim` is
`dim_size` when given, else `0` for an empty index, else `int(index.max()) + 1`;
any `dim` other than `0` raises `ValueError("Sorry, I just code a dim")`. -/
def scatter_add_weigh (src : Mat) (index : List ℕ) (dim : ℤ) (dim_size : Option ℕ)
    (weigh : Vec) : Except String Mat :=
  let size0 : ℕ :=
    match dim_size with
    | some d => d
    | none => if index.isEmpty then 0 else index.foldl Nat.max 0 + 1
  if dim = 0 then Except.ok (weighLoop src index weigh (zeros size0 (rowWidth src)))
  else Except.error "Sorry, I just code a dim"

/-- Row-wise product `weigh[i] * src[i]` (scalar times row). -/
def scaleRows (weigh : Vec) (src : Mat) : Mat :=
  List.zipWith (fun q r => r.map (fun a => q * a)) weigh src

/-- Broadcast product `src * weigh.reshape(-1, 1)` as used on mpn.py lines
349 and 355 (row times scalar). -/
def mulWeighCol (src : Mat) (weigh : Vec) : Mat :=
  List.zipWith (fun r q => r.map (fun a => a * q)) src weigh

/-- Value of the Python dict returned by `TimeAwareNodeModel.forward`: either a
2-D float tensor, a Python int, or (for stating claims about what the dict
holds) a 1-D integer index tensor. -/
inductive TVal where
  | mat (m : Mat)
  | nat (n : ℕ)
  | idxList (l : List ℕ)
deriving DecidableEq

/-- `MLPGraphIndependent` (mpn.py lines 121-160): an optional node MLP and an
optional edge MLP, applied independently; a feature stream with no MLP passes
through unchanged. -/
structure MLPGraphIndependent where
  node_mlp : Option (Vec → Vec)
  edge_mlp : Option (Vec → Vec)

/-- `MLPGraphIndependent.forward(edge_feats, nodes_feats)`: returns
`(out_edge_feats, out_node_feats)`. -/
def MLPGraphIndependent.forward (m : MLPGraphIndependent) (edge_feats nodes_feats : Mat) :
    Mat × Mat :=
  ( match m.edge_mlp with
    | some f => edge_feats.map f
    | none => edge_feats,
    match m.node_mlp with
    | some f => nodes_feats.map f
    | none => nodes_feats )

/-- `EdgeModel.forward(source, target, edge_attr)` (mpn.py lines 86-88):
concatenate the three feature matrices along the feature axis and apply the
edge MLP row by row. -/
def edgeModelForward (edgeMlp : Vec → Vec) (source target edge_attr : Mat) : Mat :=
  (rowCat (rowCat source target) edge_attr).map edgeMlp

/-- `TimeAwareNodeModel.forward(x, edge_index, edge_attr)` (mpn.py lines
102-118).  With `row, col = edge_index` (an edge is the pair `(row, col)` =
(source, target)): the forward-flow partition keeps edges with `row < col`,
its per-edge input is `cat([x[col], edge_attr], dim=1)` fed to `flow_out_mlp`;
the backward-flow partition keeps edges with `row > col`, its per-edge input is
`cat([x[col], edge_attr], dim=1)` fed to `flow_in_mlp`.  Returns the dict
`{'flow_out': ..., 'flow_in': ..., 'x_size0': x.size(0)}`. -/
def timeAwareNodeForward (flowInMlp flowOutMlp : Vec → Vec) (x : Mat)
    (edges : List (ℕ × ℕ)) (edge_attr : Mat) : List (String × TVal) :=
  let flowOutPairs := (edges.zip edge_attr).filter (fun p => p.1.1 < p.1.2)
  let flow_out := flowOutPairs.map (fun p => flowOutMlp (x.getD p.1.2 [] ++ p.2))
  let flowInPairs := (edges.zip edge_attr).filter (fun p => p.1.2 < p.1.1)
  let flow_in := flowInPairs.map (fun p => flowInMlp (x.getD p.1.2 [] ++ p.2))
  [("flow_out", TVal.mat flow_out), ("flow_in", TVal.mat flow_in), ("x_size0", TVal.nat x.length)]

/-- Read a matrix entry out of the node-feats dict (`node_feats_set['flow_out']`). -/
def lookupMat (d : List (String × TVal)) (key : String) : Mat :=
  match d.lookup key with
  | some (TVal.mat m) => m
  | _ => []

/-- Read the node count out of the node-feats dict (`node_feats_set['x_size0']`). -/
def lookupNat (d : List (String × TVal)) (key : String) : ℕ :=
  match d.lookup key with
  | some (TVal.nat n) => n
  | _ => 0

/-- `MetaLayer.forward(x, edge_index, edge_attr)` (mpn.py lines 51-73), with
both sub-models present as in `MOTMPNet`: first the edge update on
`(x[row], x[col], edge_attr)`, then the node update on the *new* edge
attributes; returns `(node_feats_set, new_edge_attr)`. -/
def metaLayerForward (edgeMlp flowInMlp flowOutMlp : Vec → Vec) (x : Mat)
    (edges : List (ℕ × ℕ)) (edge_attr : Mat) : List (String × TVal) × Mat :=
  let edge_attr2 :=
    edgeModelForward edgeMlp (gather x (edges.map Prod.fst)) (gather x (edges.map Prod.snd))
      edge_attr
  (timeAwareNodeForward flowInMlp flowOutMlp x edges edge_attr2, edge_attr2)

/-- `row[flow_out_mask]` (mpn.py lines 345-346 and 368-369): the source indices
of the forward-flow edges, used as the grouping for forward-flow aggregation. -/
def flowOutRow (edges : List (ℕ × ℕ)) : List ℕ :=
  (edges.filter (fun e => e.1 < e.2)).map Prod.fst

/-- `row[flow_in_mask]` (mpn.py lines 351-352 and 375-376): the source indices
of the backward-flow edges, used as the grouping for backward-flow aggregation. -/
def flowInRow (edges : List (ℕ × ℕ)) : List ℕ :=
  (edges.filter (fun e => e.2 < e.1)).map Prod.fst

/-- Boolean-mask selection of per-edge scalars, `vals[mask]` for a mask given
by a predicate on the edge endpoint pair. -/
def maskQ (edges : List (ℕ × ℕ)) (vals : Vec) (p : ℕ × ℕ → Prop) [DecidablePred p] : Vec :=
  ((edges.zip vals).filter (fun q => decide (p q.1))).map Prod.snd

/-- The aggregation operators admitted by `_build_core_MPNet`. -/
inductive AggKind where
  | mean
  | max
  | sum
deriving DecidableEq

/-- The resolved `node_agg_fn` (mpn.py lines 220-227): scatter-reduce by index
with an explicit output size. -/
def nodeAggFn : AggKind → Mat → List ℕ → ℕ → Mat
  | AggKind.mean, out, row, x_size => scatterMean out row x_size
  | AggKind.max, out, row, x_size => scatterMax out row x_size
  | AggKind.sum, out, row, x_size => scatter_add out row x_size

/-- What `node_agg_fn` holds after the dispatch chain of `_build_core_MPNet`:
either a resolved callable, or (when no branch fired) still the raw
configuration string. -/
inductive AggSlot where
  | fn (k : AggKind)
  | raw (s : String)
deriving DecidableEq

/-- Python `str.lower()` on ASCII strings: map upper-case letters to their
lower-case counterparts. -/
def pyLower (s : String) : String :=
  String.mk (s.data.map (fun c =>
    if 65 ≤ c.toNat ∧ c.toNat ≤ 90 then Char.ofNat (c.toNat + 32) else c))

/-- The aggregation-function selection of `_build_core_MPNet` (mpn.py lines
217-227): the assert checks membership of `node_agg_fn.lower()` in
`('mean', 'max', 'sum')`; the subsequent dispatch compares the *unlowered*
string against the three lowercase literals, and a name that matches no branch
is left as the raw string. -/
def buildNodeAggFn (name : String) : Except String AggSlot :=
  if ["mean", "max", "sum"].contains (pyLower name) then
    if name = "mean" then Except.ok (AggSlot.fn AggKind.mean)
    else if name = "max" then Except.ok (AggSlot.fn AggKind.max)
    else if name = "sum" then Except.ok (AggSlot.fn AggKind.sum)
    else Except.ok (AggSlot.raw name)
  else Except.error "node_agg_fn can only be max, mean or sum."

/-- Invoking the stored `self.node_agg_fn` during a forward pass: a resolved
callable aggregates; a raw string is not callable (Python `TypeError`). -/
def aggSlotApply : AggSlot → Mat → List ℕ → ℕ → Except String Mat
  | AggSlot.fn k, out, row, x_size => Except.ok (nodeAggFn k out row x_size)
  | AggSlot.raw _, _, _, _ => Except.error "TypeError: str object is not callable"

/-- `edge_factor` (mpn.py line 238). -/
def edge_factor (reattach_initial_edges : Bool) : ℕ := if reattach_initial_edges then 2 else 1

/-- `node_factor` (mpn.py line 239). -/
def node_factor (reattach_initial_nodes : Bool) : ℕ := if reattach_initial_nodes then 2 else 1

/-- `edge_model_in_dim` (mpn.py lines 241-242). -/
def edge_model_in_dim (nfac efac node_out_dim edge_out_dim : ℕ) : ℕ :=
  nfac * 2 * node_out_dim + efac * edge_out_dim

/-- `node_model_in_dim` (mpn.py line 243). -/
def node_model_in_dim (nfac node_out_dim edge_out_dim : ℕ) : ℕ :=
  nfac * node_out_dim + edge_out_dim

/-- Reattachment of the initial embeddings (mpn.py lines 316-319): when the
flag is set, concatenate the untouched initial embedding in front of the
current one along the feature axis. -/
def reattach (flag : Bool) (ini cur : Mat) : Mat :=
  if flag then rowCat ini cur else cur

/-- The configuration and weights of `MOTMPNet` that its forward pass reads
(no appearance CNN, `bb_encoder = None`). -/
structure MOTWeights where
  encoder : MLPGraphIndependent
  classifier : MLPGraphIndependent
  edgeMlp : Vec → Vec
  flowInMlp : Vec → Vec
  flowOutMlp : Vec → Vec
  nodeMlp : Vec → Vec
  sigmoid : ℚ → ℚ
  aggKind : AggKind
  numEncSteps : ℕ
  numClassSteps : ℕ
  reattachInitialNodes : Bool
  reattachInitialEdges : Bool

/-- The mutable state of the message-passing loop of `MOTMPNet.forward`. -/
structure LoopState where
  nodeFeats : Mat
  edgeFeats : Mat
  classified : List Mat
  nodeSnaps : List Mat

/-- One iteration of the loop of `MOTMPNet.forward` (mpn.py lines 313-384):
reattach if configured, run the MPN round, and either (classification step,
`step >= first_class_step`) classify the new edge embedding, sigmoid the
logits, aggregate the confidence-weighted flow messages, merge, and snapshot
the new node embedding, or (pre-classification step) aggregate unweighted and
merge without snapshotting. -/
def motStep (w : MOTWeights) (edges : List (ℕ × ℕ)) (initialEdgeFeats initialNodeFeats : Mat)
    (firstClassStep : ℤ) (step : ℕ) (st : LoopState) : LoopState :=
  let lef := reattach w.reattachInitialEdges initialEdgeFeats st.edgeFeats
  let lnf := reattach w.reattachInitialNodes initialNodeFeats st.nodeFeats
  let res := metaLayerForward w.edgeMlp w.flowInMlp w.flowOutMlp lnf edges lef
  let node_feats_set := res.1
  let latentEdgeFeats := res.2
  let x_size0 := lookupNat node_feats_set "x_size0"
  let flow_out := lookupMat node_feats_set "flow_out"
  let flow_in := lookupMat node_feats_set "flow_in"
  if firstClassStep ≤ (step : ℤ) then
    let dec_edge_feats := (w.classifier.forward latentEdgeFeats []).1
    let dec_edge_weigh := dec_edge_feats.flatten.map w.sigmoid
    let flow_out_agg :=
      nodeAggFn w.aggKind (mulWeighCol flow_out (maskQ edges dec_edge_weigh (fun e => e.1 < e.2)))
        (flowOutRow edges) x_size0
    let flow_in_agg :=
      nodeAggFn w.aggKind (mulWeighCol flow_in (maskQ edges dec_edge_weigh (fun e => e.2 < e.1)))
        (flowInRow edges) x_size0
    let lnf2 := (rowCat flow_in_agg flow_out_agg).map w.nodeMlp
    { nodeFeats := lnf2, edgeFeats := latentEdgeFeats,
      classified := st.classified ++ [dec_edge_feats],
      nodeSnaps := st.nodeSnaps ++ [lnf2] }
  else
    let flow_out_agg := nodeAggFn w.aggKind flow_out (flowOutRow edges) x_size0
    let flow_in_agg := nodeAggFn w.aggKind flow_in (flowInRow edges) x_size0
    let lnf2 := (rowCat flow_in_agg flow_out_agg).map w.nodeMlp
    { nodeFeats := lnf2, edgeFeats := latentEdgeFeats,
      classified := st.classified, nodeSnaps := st.nodeSnaps }

/-- The loop `for step in range(1, num_enc_steps + 1)` of `MOTMPNet.forward`,
running `remaining` iterations starting at index `step`. -/
def motLoop (w : MOTWeights) (edges : List (ℕ × ℕ)) (initialEdgeFeats initialNodeFeats : Mat)
    (firstClassStep : ℤ) (step : ℕ) : ℕ → LoopState → LoopState
  | 0, st => st
  | Nat.succ r, st =>
      motLoop w edges initialEdgeFeats initialNodeFeats firstClassStep (step + 1) r
        (motStep w edges initialEdgeFeats initialNodeFeats firstClassStep step st)

/-- The labelled output bundle `outputs_dict` of `MOTMPNet.forward`. -/
structure OutputsDict where
  classified_edges : List Mat
  node_feats : List Mat
deriving DecidableEq

/-- `MOTMPNet.forward(data)` (mpn.py lines 278-389) with `bb_encoder = None`:
encode, record the initial node snapshot, run `num_enc_steps` message-passing
steps with `first_class_step = num_enc_steps - num_class_steps + 1`, and when
`num_enc_steps == 0` classify the encoder-output edge embedding directly. -/
def motForward (w : MOTWeights) (x : Mat) (edges : List (ℕ × ℕ)) (edge_attr : Mat) :
    OutputsDict :=
  let enc := w.encoder.forward edge_attr x
  let latentEdgeFeats := enc.1
  let latentNodeFeats := enc.2
  let firstClassStep : ℤ := (w.numEncSteps : ℤ) - (w.numClassSteps : ℤ) + 1
  let st0 : LoopState :=
    { nodeFeats := latentNodeFeats, edgeFeats := latentEdgeFeats,
      classified := [], nodeSnaps := [latentNodeFeats] }
  let stFin := motLoop w edges latentEdgeFeats latentNodeFeats firstClassStep 1 w.numEncSteps st0
  if w.numEncSteps = 0 then
    { classified_edges := stFin.classified ++ [(w.classifier.forward stFin.edgeFeats []).1],
      node_feats := stFin.nodeSnaps }
  else
    { classified_edges := stFin.classified, node_feats := stFin.nodeSnaps }

/-- The MPN round as invoked inside one loop iteration of `MOTMPNet.forward`:
`self.MPNet(latent_node_feats, edge_index, latent_edge_feats)` applied to the
(possibly reattached) current embeddings. -/
def metaRound (w : MOTWeights) (edges : List (ℕ × ℕ)) (initialEdgeFeats initialNodeFeats : Mat)
    (st : LoopState) : List (String × TVal) × Mat :=
  metaLayerForward w.edgeMlp w.flowInMlp w.flowOutMlp
    (reattach w.reattachInitialNodes initialNodeFeats st.nodeFeats) edges
    (reattach w.reattachInitialEdges initialEdgeFeats st.edgeFeats)

/-- The per-edge logits `dec_edge_feats` of a classification round: the edge
classifier applied to the round's new edge embedding. -/
def roundLogits (w : MOTWeights) (edges : List (ℕ × ℕ))
    (initialEdgeFeats initialNodeFeats : Mat) (st : LoopState) : Mat :=
  (w.classifier.forward (metaRound w edges initialEdgeFeats initialNodeFeats st).2 []).1

/-- The per-edge confidences `dec_edge_weigh` of a classification round: the
sigmoid of the flattened logits. -/
def roundWeigh (w : MOTWeights) (edges : List (ℕ × ℕ))
    (initialEdgeFeats initialNodeFeats : Mat) (st : LoopState) : Vec :=
  (roundLogits w edges initialEdgeFeats initialNodeFeats st).flatten.map w.sigmoid

/- Sample weights and graphs used by the concrete witnesses below. -/

/-- Sample model: pass-through encoder, constant-zero edge classifier,
constant message MLPs, identity node merge, sum aggregation, R = 2, C = 1. -/
def sampleWeights : MOTWeights :=
  { encoder := { node_mlp := none, edge_mlp := none },
    classifier := { node_mlp := none, edge_mlp := some (fun _ => [0]) },
    edgeMlp := fun _ => [0],
    flowInMlp := fun _ => [0],
    flowOutMlp := fun _ => [1],
    nodeMlp := fun v => v,
    sigmoid := fun _ => 1,
    aggKind := AggKind.sum,
    numEncSteps := 2,
    numClassSteps := 1,
    reattachInitialNodes := false,
    reattachInitialEdges := false }

/-- Sample model with zero message-passing rounds (R = 0). -/
def sampleWeightsR0 : MOTWeights :=
  { sampleWeights with numEncSteps := 0, numClassSteps := 0 }

/-- Sample 4-node path graph node features. -/
def sampleX : Mat := [[1], [2], [3], [4]]

/-- Sample edges: the path edges and their reverses. -/
def sampleEdges : List (ℕ × ℕ) := [(0, 1), (1, 2), (2, 3), (1, 0), (2, 1), (3, 2)]

/-- Sample edge features, one row per edge. -/
def sampleEdgeAttr : Mat := [[10], [20], [30], [40], [50], [60]]

/-- Sample loop state, as at the start of the message-passing loop. -/
def sampleState : LoopState :=
  { nodeFeats := sampleX, edgeFeats := sampleEdgeAttr, classified := [],
    nodeSnaps := [sampleX] }

/-- Sample model with edge reattachment enabled. -/
def sampleWeightsReattach : MOTWeights :=
  { sampleWeights with reattachInitialEdges := true }

/-- Sample loop state on a 2-node, single-edge graph. -/
def smallState : LoopState :=
  { nodeFeats := [[0], [0]], edgeFeats := [[0]], classified := [], nodeSnaps := [] }

lemma rowWidth_scaleRows (weigh : Vec) (src : Mat) (h : src.length = weigh.length) :
    rowWidth (scaleRows weigh src) = rowWidth src := by
  cases src with
  | nil => cases weigh <;> simp [scaleRows, rowWidth]
  | cons s ss =>
    cases weigh with
    | nil => simp at h
    | cons q qs => simp [scaleRows, rowWidth]

lemma weighLoop_eq_addLoop :
    ∀ (src : Mat) (index : List ℕ) (weigh : Vec) (out : Mat),
      src.length = index.length → src.length = weigh.length →
      weighLoop src index weigh out = addLoop (scaleRows weigh src) index out := by
  intro src
  induction src with
  | nil =>
    intro index weigh out h1 _
    cases index with
    | nil => simp [weighLoop, scaleRows, addLoop]
    | cons i rest => simp at h1
  | cons s ss ih =>
    intro index weigh out h1 h2
    cases index with
    | nil => simp at h1
    | cons i rest =>
      cases weigh with
      | nil => simp at h2
      | cons q qs =>
        simp only [weighLoop, scaleRows, List.zipWith_cons_cons, addLoop]
        exact ih rest qs _ (by simpa using h1) (by simpa using h2)

lemma mulWeighCol_eq_scaleRows :
    ∀ (src : Mat) (weigh : Vec), mulWeighCol src weigh = scaleRows weigh src := by
  intro src
  induction src with
  | nil => intro weigh; cases weigh <;> simp [mulWeighCol, scaleRows]
  | cons s ss ih =>
    intro weigh
    cases weigh with
    | nil => simp [mulWeighCol, scaleRows]
    | cons q qs =>
      simp only [mulWeighCol, scaleRows, List.zipWith_cons_cons, List.cons.injEq]
      constructor
      · exact List.map_congr_left (fun a _ => mul_comm a q)
      · exact ih qs

lemma addLoop_getD_not_mem :
    ∀ (src : Mat) (index : List ℕ) (out : Mat) (j : ℕ), j ∉ index →
      (addLoop src index out).getD j [] = out.getD j [] := by
  intro src
  induction src with
  | nil => intro index out j _; cases index <;> simp [addLoop]
  | cons s ss ih =>
    intro index out j hj
    cases index with
    | nil => simp [addLoop]
    | cons i rest =>
      have hne : i ≠ j := fun h => hj (by simp [h])
      have hrest : j ∉ rest := fun h => hj (List.mem_cons_of_mem _ h)
      simp only [addLoop]
      rw [ih rest _ j hrest]
      simp only [List.getD_eq_getElem?_getD]
      rw [List.getElem?_set_ne hne]

/-- C10: `scatter_add_weigh` with `dim = 0` and an explicit `dim_size` equals
the sum-scatter of the row-wise products `weigh[i] * src[i]` grouped by
`index`, which is exactly the weighted path `scatter_add(src * weigh, index)`
used in classification rounds; any `dim` other than `0` raises an error. -/
theorem scatter_add_weigh_refines_weighted_scatter (src : Mat) (index : List ℕ) (weigh : Vec)
    (n : ℕ) (dsz : Option ℕ) (dim : ℤ) :
    (dim ≠ 0 → scatter_add_weigh src index dim dsz weigh =
        Except.error "Sorry, I just code a dim")
  ∧ (src.length = index.length → src.length = weigh.length →
      scatter_add_weigh src index 0 (some n) weigh =
        Except.ok (scatter_add (scaleRows weigh src) index n))
  ∧ mulWeighCol src weigh = scaleRows weigh src
  ∧ nodeAggFn AggKind.sum (mulWeighCol src weigh) index n =
      scatter_add (scaleRows weigh src) index n := by
  refine ⟨fun h => by simp [scatter_add_weigh, h], fun h1 h2 => ?_,
    mulWeighCol_eq_scaleRows src weigh, ?_⟩
  · rw [scatter_add, rowWidth_scaleRows weigh src h2,
      ← weighLoop_eq_addLoop src index weigh (zeros n (rowWidth src)) h1 h2]
    simp [scatter_add_weigh]
  · simp [nodeAggFn, mulWeighCol_eq_scaleRows]

/-- Witness for C10 at a concrete input. -/
theorem scatter_add_weigh_refines_weighted_scatter_witness :
    scatter_add_weigh [[(2 : ℚ)]] [0] 1 (some 1) [3] =
      Except.error "Sorry, I just code a dim"
  ∧ scatter_add_weigh [[(2 : ℚ)]] [0] 0 (some 1) [3] =
      Except.ok (scatter_add (scaleRows [3] [[(2 : ℚ)]]) [0] 1)
  ∧ scatter_add (scaleRows [3] [[(2 : ℚ)]]) [0] 1 = [[6]] :=
  ⟨(scatter_add_weigh_refines_weighted_scatter [[2]] [0] [3] 1 (some 1) 1).1 (by decide),
   (scatter_add_weigh_refines_weighted_scatter [[2]] [0] [3] 1 (some 1) 1).2.1 (by decide)
     (by decide),
   by norm_num [scatter_add, scaleRows, addLoop, zeros, rowWidth, addVec]⟩

/-- C7: the construction-time aggregation-name check is inconsistent with the
dispatch that follows it.  The name `"Mean"` passes the assert (membership is
tested on the lowercased string) yet matches none of the exact-string dispatch
branches, so construction *succeeds* with `node_agg_fn` left as the raw,
non-callable string, and the first forward pass that invokes it fails.
Lowercase names resolve correctly, and names whose lowercase form is not among
`mean`, `max`, `sum` fail at construction. -/
theorem buildNodeAggFn_mixed_case_bug :
    buildNodeAggFn "Mean" = Except.ok (AggSlot.raw "Mean")
  ∧ buildNodeAggFn "mean" = Except.ok (AggSlot.fn AggKind.mean)
  ∧ buildNodeAggFn "max" = Except.ok (AggSlot.fn AggKind.max)
  ∧ buildNodeAggFn "sum" = Except.ok (AggSlot.fn AggKind.sum)
  ∧ buildNodeAggFn "median" = Except.error "node_agg_fn can only be max, mean or sum."
  ∧ aggSlotApply (AggSlot.raw "Mean") [[1]] [0] 1 =
      Except.error "TypeError: str object is not callable" := by
  refine ⟨?_, ?_, ?_, ?_, ?_, rfl⟩ <;> decide

/-- C9: the forward pass is a pure function — two runs on equal weights and
equal input graphs return equal output bundles. -/
theorem motForward_deterministic (w1 w2 : MOTWeights) (x1 x2 : Mat)
    (e1 e2 : List (ℕ × ℕ)) (a1 a2 : Mat)
    (hw : w1 = w2) (hx : x1 = x2) (he : e1 = e2) (ha : a1 = a2) :
    motForward w1 x1 e1 a1 = motForward w2 x2 e2 a2 := by
  subst hw hx he ha
  rfl

/-- Witness for C9 at a concrete input. -/
theorem motForward_deterministic_witness :
    motForward sampleWeights sampleX sampleEdges sampleEdgeAttr =
      motForward sampleWeights sampleX sampleEdges sampleEdgeAttr :=
  motForward_deterministic sampleWeights sampleWeights sampleX sampleX sampleEdges sampleEdges
    sampleEdgeAttr sampleEdgeAttr rfl rfl rfl rfl

/-- C1 counterexample: for the single forward-flow edge `(0, 1)` carrying the
message `[1]` in a 2-node graph, the program aggregates with the grouping
`row[flow_out_mask] = [0]`, so the sum-aggregate places the message at the
edge's *source* node 0 and nothing at its target node 1 — refuting the claim
that a forward-flow message contributes only at the edge's target node. -/
theorem forward_message_aggregated_at_source_counterexample :
    flowOutRow [(0, 1)] = [0]
  ∧ nodeAggFn AggKind.sum [[(1 : ℚ)]] (flowOutRow [(0, 1)]) 2 = [[1], [0]]
  ∧ ¬ (nodeAggFn AggKind.sum [[(1 : ℚ)]] (flowOutRow [(0, 1)]) 2).getD 1 [] = [1] := by
  norm_num [flowOutRow, nodeAggFn, scatter_add, addLoop, zeros, rowWidth, addVec,
    List.replicate_succ]

/-- C1 (amended): edges with source < target form the forward-flow partition
and source > target the backward-flow partition; the per-edge message is the
partition's MLP applied to `cat(x[target], edge_attr)`; the aggregation
grouping is the list of *source* indices of the partition's edges, so under
sum aggregation a node that is not a source of any partition edge receives
the zero row — messages contribute only at their edge's source node. -/
theorem timeAware_messages_and_source_grouping (fIn fOut : Vec → Vec) (x : Mat)
    (edges : List (ℕ × ℕ)) (ea : Mat) :
    lookupMat (timeAwareNodeForward fIn fOut x edges ea) "flow_out"
      = ((edges.zip ea).filter (fun p => p.1.1 < p.1.2)).map
          (fun p => fOut (x.getD p.1.2 [] ++ p.2))
  ∧ lookupMat (timeAwareNodeForward fIn fOut x edges ea) "flow_in"
      = ((edges.zip ea).filter (fun p => p.1.2 < p.1.1)).map
          (fun p => fIn (x.getD p.1.2 [] ++ p.2))
  ∧ flowOutRow edges = (edges.filter (fun e => e.1 < e.2)).map Prod.fst
  ∧ flowInRow edges = (edges.filter (fun e => e.2 < e.1)).map Prod.fst
  ∧ (∀ (msgs : Mat) (n j : ℕ), j ∉ flowOutRow edges →
      (nodeAggFn AggKind.sum msgs (flowOutRow edges) n).getD j []
        = (zeros n (rowWidth msgs)).getD j [])
  ∧ (∀ (msgs : Mat) (n j : ℕ), j ∉ flowInRow edges →
      (nodeAggFn AggKind.sum msgs (flowInRow edges) n).getD j []
        = (zeros n (rowWidth msgs)).getD j []) := by
  refine ⟨rfl, rfl, rfl, rfl, fun msgs n j hj => ?_, fun msgs n j hj => ?_⟩
  · simpa [nodeAggFn, scatter_add] using
      addLoop_getD_not_mem msgs (flowOutRow edges) (zeros n (rowWidth msgs)) j hj
  · simpa [nodeAggFn, scatter_add] using
      addLoop_getD_not_mem msgs (flowInRow edges) (zeros n (rowWidth msgs)) j hj

/-- Witness for the amended C1 at a concrete input. -/
theorem timeAware_messages_and_source_grouping_witness :
    lookupMat
        (timeAwareNodeForward (fun v => v) (fun v => v) [[1], [2]] [(0, 1)] [[5]]) "flow_out"
      = [[(2 : ℚ), 5]]
  ∧ (nodeAggFn AggKind.sum [[(7 : ℚ)]] (flowOutRow [(0, 1)]) 2).getD 1 []
      = (zeros 2 (rowWidth [[(7 : ℚ)]])).getD 1 [] :=
  ⟨(timeAware_messages_and_source_grouping (fun v => v) (fun v => v) [[1], [2]] [(0, 1)]
      [[5]]).1.trans (by decide),
   (timeAware_messages_and_source_grouping (fun v => v) (fun v => v) [[1], [2]] [(0, 1)]
      [[5]]).2.2.2.2.1 [[7]] 2 1 (by decide)⟩

/-- C4 (amended): the message-passing round primitive first computes the new
edge embeddings from `cat(x[source], x[target], edge_attr)` through the edge
MLP, then runs the time-aware node model on those *new* edge embeddings, and
returns the raw un-aggregated message sets and the total node count together
with the new edge embeddings; the destination-index groupings are *not* part
of the returned bundle (the orchestrator recomputes them from the edge
index).  The round is a pure function of its inputs and weights. -/
theorem metaLayer_round_structure (em fIn fOut : Vec → Vec) (x : Mat)
    (edges : List (ℕ × ℕ)) (ea : Mat) :
    (metaLayerForward em fIn fOut x edges ea).2
      = edgeModelForward em (gather x (edges.map Prod.fst)) (gather x (edges.map Prod.snd)) ea
  ∧ (metaLayerForward em fIn fOut x edges ea).1
      = timeAwareNodeForward fIn fOut x edges ((metaLayerForward em fIn fOut x edges ea).2)
  ∧ ((metaLayerForward em fIn fOut x edges ea).1).map Prod.fst
      = ["flow_out", "flow_in", "x_size0"]
  ∧ lookupNat ((metaLayerForward em fIn fOut x edges ea).1) "x_size0" = x.length :=
  ⟨rfl, rfl, rfl, rfl⟩

/-- C4 counterexample: at a concrete input the bundle returned by the round
primitive consists of exactly the two message matrices and the node count —
no entry holds the destination-index grouping of the forward-flow partition,
refuting the part of the claim that says the groupings are returned. -/
theorem metaLayer_no_groupings_counterexample :
    (metaLayerForward (fun _ => [0]) (fun _ => [0]) (fun _ => [0])
        [[0], [0]] [(0, 1)] [[0]]).1
      = [("flow_out", TVal.mat [[0]]), ("flow_in", TVal.mat []), ("x_size0", TVal.nat 2)]
  ∧ ¬ ∃ p ∈ (metaLayerForward (fun _ => [0]) (fun _ => [0]) (fun _ => [0])
        [[0], [0]] [(0, 1)] [[0]]).1,
      p.2 = TVal.idxList (flowOutRow [(0, 1)]) := by
  decide

/-- C6: a self-loop edge (source = target) is dropped from both flow
partitions: appending one to the edge list changes neither the node-update
message sets nor the aggregation groupings, so it contributes to no node's
aggregated message in either partition. -/
theorem selfLoop_excluded_from_node_messages (fIn fOut : Vec → Vec) (x : Mat)
    (edges : List (ℕ × ℕ)) (ea : Mat) (k : ℕ) (a : Vec) (h : edges.length = ea.length) :
    timeAwareNodeForward fIn fOut x (edges ++ [(k, k)]) (ea ++ [a])
      = timeAwareNodeForward fIn fOut x edges ea
  ∧ flowOutRow (edges ++ [(k, k)]) = flowOutRow edges
  ∧ flowInRow (edges ++ [(k, k)]) = flowInRow edges := by
  refine ⟨?_, ?_, ?_⟩
  · simp [timeAwareNodeForward, List.zip_append h, List.filter_append]
  · simp [flowOutRow, List.filter_append]
  · simp [flowInRow, List.filter_append]

/-- Witness for C6 at a concrete input. -/
theorem selfLoop_excluded_from_node_messages_witness :
    timeAwareNodeForward (fun v => v) (fun v => v) [[1], [2], [3]] [(0, 1), (2, 2)]
        [[5], [9]]
      = timeAwareNodeForward (fun v => v) (fun v => v) [[1], [2], [3]] [(0, 1)] [[5]]
  ∧ flowOutRow [(0, 1), (2, 2)] = flowOutRow [(0, 1)] :=
  ⟨(selfLoop_excluded_from_node_messages (fun v => v) (fun v => v) [[1], [2], [3]]
      [(0, 1)] [[5]] 2 [9] (by decide)).1,
   (selfLoop_excluded_from_node_messages (fun v => v) (fun v => v) [[1], [2], [3]]
      [(0, 1)] [[5]] 2 [9] (by decide)).2.1⟩

lemma motStep_classified_length (w : MOTWeights) (edges : List (ℕ × ℕ)) (ie inn : Mat)
    (fcs : ℤ) (step : ℕ) (st : LoopState) :
    (motStep w edges ie inn fcs step st).classified.length
      = st.classified.length + (if fcs ≤ (step : ℤ) then 1 else 0) := by
  by_cases h : fcs ≤ (step : ℤ) <;> simp [motStep, h]

lemma motStep_nodeSnaps_length (w : MOTWeights) (edges : List (ℕ × ℕ)) (ie inn : Mat)
    (fcs : ℤ) (step : ℕ) (st : LoopState) :
    (motStep w edges ie inn fcs step st).nodeSnaps.length
      = st.nodeSnaps.length + (if fcs ≤ (step : ℤ) then 1 else 0) := by
  by_cases h : fcs ≤ (step : ℤ) <;> simp [motStep, h]

lemma motLoop_classified_length (w : MOTWeights) (edges : List (ℕ × ℕ)) (ie inn : Mat)
    (fcs : ℤ) :
    ∀ (r s : ℕ) (st : LoopState),
      (motLoop w edges ie inn fcs s r st).classified.length
        = st.classified.length + (List.range' s r).countP (fun i : ℕ => decide (fcs ≤ (i : ℤ))) := by
  intro r
  induction r with
  | zero => intro s st; simp [motLoop]
  | succ n ih =>
    intro s st
    rw [List.range'_succ, List.countP_cons]
    simp only [motLoop]
    rw [ih (s + 1), motStep_classified_length]
    by_cases h : fcs ≤ (s : ℤ) <;> (simp [h]; try omega)

lemma motLoop_nodeSnaps_length (w : MOTWeights) (edges : List (ℕ × ℕ)) (ie inn : Mat)
    (fcs : ℤ) :
    ∀ (r s : ℕ) (st : LoopState),
      (motLoop w edges ie inn fcs s r st).nodeSnaps.length
        = st.nodeSnaps.length + (List.range' s r).countP (fun i : ℕ => decide (fcs ≤ (i : ℤ))) := by
  intro r
  induction r with
  | zero => intro s st; simp [motLoop]
  | succ n ih =>
    intro s st
    rw [List.range'_succ, List.countP_cons]
    simp only [motLoop]
    rw [ih (s + 1), motStep_nodeSnaps_length]
    by_cases h : fcs ≤ (s : ℤ) <;> (simp [h]; try omega)

lemma countP_range'_threshold (t : ℤ) :
    ∀ (r s : ℕ), (List.range' s r).countP (fun i : ℕ => decide (t ≤ (i : ℤ)))
      = ((s + r : ℤ) - max (s : ℤ) t).toNat ⊓ r := by
  intro r
  induction r with
  | zero => intro s; simp; omega
  | succ n ih =>
    intro s
    rw [List.range'_succ, List.countP_cons, ih (s + 1)]
    by_cases h : t ≤ (s : ℤ) <;> (simp [h]; omega)

/-- C3: when `1 ≤ C ≤ R` the forward pass returns exactly `C` per-round edge
logit matrices; when `R = 0` it returns exactly one logit matrix, obtained by
classifying the encoder-output edge embedding directly, and the node-feature
output holds only the initial encoder snapshot (no node update happened). -/
theorem motForward_logit_count (w : MOTWeights) (x : Mat) (edges : List (ℕ × ℕ)) (ea : Mat) :
    (1 ≤ w.numClassSteps → w.numClassSteps ≤ w.numEncSteps →
      (motForward w x edges ea).classified_edges.length = w.numClassSteps)
  ∧ (w.numEncSteps = 0 →
      (motForward w x edges ea).classified_edges
          = [(w.classifier.forward (w.encoder.forward ea x).1 []).1]
        ∧ (motForward w x edges ea).node_feats = [(w.encoder.forward ea x).2]) := by
  constructor
  · intro h1 h2
    have hR : ¬ w.numEncSteps = 0 := by omega
    simp only [motForward, hR, if_false]
    rw [motLoop_classified_length, countP_range'_threshold]
    simp only [List.length_nil]
    omega
  · intro h0
    rw [motForward]
    simp [h0, motLoop]

/-- Witness for C3 at concrete inputs (R = 2, C = 1, and an R = 0 model). -/
theorem motForward_logit_count_witness :
    (motForward sampleWeights sampleX sampleEdges sampleEdgeAttr).classified_edges.length = 1
  ∧ (motForward sampleWeightsR0 sampleX sampleEdges sampleEdgeAttr).classified_edges
      = [(sampleWeightsR0.classifier.forward
            (sampleWeightsR0.encoder.forward sampleEdgeAttr sampleX).1 []).1] :=
  ⟨(motForward_logit_count sampleWeights sampleX sampleEdges sampleEdgeAttr).1
      (by decide) (by decide),
   ((motForward_logit_count sampleWeightsR0 sampleX sampleEdges sampleEdgeAttr).2
      (by decide)).1⟩

/-- C2: in a round with index at least `first_class_step`, the new edge
embedding is classified, the logits are appended to the output, the flattened
logits are turned into confidences by the sigmoid, both flow-message sets are
pre-multiplied row-wise by their edges' confidences before being reduced with
the configured aggregation function grouped by the flow rows, the two
aggregates are concatenated backward-flow (`flow_in`) first, merged through the
shared node MLP into the round's new node embedding, and that embedding is
appended to the node-snapshot output. -/
theorem classification_round_weighted_update (w : MOTWeights) (edges : List (ℕ × ℕ))
    (ie inn : Mat) (fcs : ℤ) (step : ℕ) (st : LoopState) (h : fcs ≤ (step : ℤ)) :
    (motStep w edges ie inn fcs step st).classified
        = st.classified ++ [roundLogits w edges ie inn st]
  ∧ (motStep w edges ie inn fcs step st).nodeFeats
        = (rowCat
            (nodeAggFn w.aggKind
              (mulWeighCol (lookupMat (metaRound w edges ie inn st).1 "flow_in")
                (maskQ edges (roundWeigh w edges ie inn st) (fun e => e.2 < e.1)))
              (flowInRow edges) (lookupNat (metaRound w edges ie inn st).1 "x_size0"))
            (nodeAggFn w.aggKind
              (mulWeighCol (lookupMat (metaRound w edges ie inn st).1 "flow_out")
                (maskQ edges (roundWeigh w edges ie inn st) (fun e => e.1 < e.2)))
              (flowOutRow edges) (lookupNat (metaRound w edges ie inn st).1 "x_size0"))).map
            w.nodeMlp
  ∧ (motStep w edges ie inn fcs step st).nodeSnaps
        = st.nodeSnaps ++ [(motStep w edges ie inn fcs step st).nodeFeats]
  ∧ (motStep w edges ie inn fcs step st).edgeFeats = (metaRound w edges ie inn st).2 := by
  simp only [motStep, if_pos h, metaRound, roundLogits, roundWeigh]
  exact ⟨trivial, trivial, trivial, trivial⟩

/-- Witness for C2 at a concrete input. -/
theorem classification_round_weighted_update_witness :
    (motStep sampleWeights sampleEdges sampleEdgeAttr sampleX 2 2 sampleState).classified
        = sampleState.classified
            ++ [roundLogits sampleWeights sampleEdges sampleEdgeAttr sampleX sampleState]
  ∧ (motStep sampleWeights sampleEdges sampleEdgeAttr sampleX 2 2 sampleState).nodeSnaps
        = sampleState.nodeSnaps
            ++ [(motStep sampleWeights sampleEdges sampleEdgeAttr sampleX 2 2
                  sampleState).nodeFeats] :=
  ⟨(classification_round_weighted_update sampleWeights sampleEdges sampleEdgeAttr sampleX 2 2
      sampleState (by decide)).1,
   (classification_round_weighted_update sampleWeights sampleEdges sampleEdgeAttr sampleX 2 2
      sampleState (by decide)).2.2.1⟩

/-- C5 (amended): in a round with index strictly below `first_class_step` the
flow messages are aggregated ungated (no confidence weighting) with the
configured aggregation function, grouped per *source* node
(`flowOutRow`/`flowInRow`, the edges' source indices — not per destination
node as originally claimed), the merged node embedding is not snapshotted and
no logits are appended; and a run with `1 ≤ C ≤ R` produces exactly `1 + C`
node-embedding snapshots (the encoder output plus one per classification
round). -/
theorem preclassification_round_and_snapshot_count (w : MOTWeights) (edges : List (ℕ × ℕ))
    (ie inn : Mat) (fcs : ℤ) (step : ℕ) (st : LoopState) (x ea : Mat) :
    ((step : ℤ) < fcs →
      motStep w edges ie inn fcs step st =
        { nodeFeats :=
            (rowCat
              (nodeAggFn w.aggKind (lookupMat (metaRound w edges ie inn st).1 "flow_in")
                (flowInRow edges) (lookupNat (metaRound w edges ie inn st).1 "x_size0"))
              (nodeAggFn w.aggKind (lookupMat (metaRound w edges ie inn st).1 "flow_out")
                (flowOutRow edges) (lookupNat (metaRound w edges ie inn st).1 "x_size0"))).map
              w.nodeMlp,
          edgeFeats := (metaRound w edges ie inn st).2,
          classified := st.classified,
          nodeSnaps := st.nodeSnaps })
  ∧ (1 ≤ w.numClassSteps → w.numClassSteps ≤ w.numEncSteps →
      (motForward w x edges ea).node_feats.length = 1 + w.numClassSteps) := by
  constructor
  · intro h
    have h' : ¬ fcs ≤ (step : ℤ) := by omega
    simp only [motStep, if_neg h', metaRound]
  · intro h1 h2
    have hR : ¬ w.numEncSteps = 0 := by omega
    simp only [motForward, hR, if_false]
    rw [motLoop_nodeSnaps_length, countP_range'_threshold]
    simp only [List.length_singleton]
    omega

/-- Witness for C5 at a concrete input (a pre-classification round of the
R = 2, C = 1 sample model, and its snapshot count). -/
theorem preclassification_round_and_snapshot_count_witness :
    motStep sampleWeights sampleEdges sampleEdgeAttr sampleX 2 1 sampleState =
      { nodeFeats :=
          (rowCat
            (nodeAggFn sampleWeights.aggKind
              (lookupMat (metaRound sampleWeights sampleEdges sampleEdgeAttr sampleX
                  sampleState).1 "flow_in")
              (flowInRow sampleEdges)
              (lookupNat (metaRound sampleWeights sampleEdges sampleEdgeAttr sampleX
                  sampleState).1 "x_size0"))
            (nodeAggFn sampleWeights.aggKind
              (lookupMat (metaRound sampleWeights sampleEdges sampleEdgeAttr sampleX
                  sampleState).1 "flow_out")
              (flowOutRow sampleEdges)
              (lookupNat (metaRound sampleWeights sampleEdges sampleEdgeAttr sampleX
                  sampleState).1 "x_size0"))).map
            sampleWeights.nodeMlp,
        edgeFeats := (metaRound sampleWeights sampleEdges sampleEdgeAttr sampleX sampleState).2,
        classified := sampleState.classified,
        nodeSnaps := sampleState.nodeSnaps }
  ∧ (motForward sampleWeights sampleX sampleEdges sampleEdgeAttr).node_feats.length = 1 + 1 :=
  ⟨(preclassification_round_and_snapshot_count sampleWeights sampleEdges sampleEdgeAttr
      sampleX 2 1 sampleState sampleX sampleEdgeAttr).1 (by decide),
   (preclassification_round_and_snapshot_count sampleWeights sampleEdges sampleEdgeAttr
      sampleX 2 1 sampleState sampleX sampleEdgeAttr).2 (by decide) (by decide)⟩

lemma rowCat_getD :
    ∀ (a b : Mat) (j : ℕ), j < a.length → j < b.length →
      (rowCat a b).getD j [] = a.getD j [] ++ b.getD j [] := by
  intro a
  induction a with
  | nil => intro b j h1 _; simp at h1
  | cons r rs ih =>
    intro b j h1 h2
    cases b with
    | nil => simp at h2
    | cons s ss =>
      cases j with
      | zero => simp [rowCat]
      | succ n =>
        have := ih ss n (by simpa using h1) (by simpa using h2)
        simpa [rowCat] using this

/-- C8: with reattachment enabled, the initial embedding is concatenated onto
the current one before the update in every round (so each row's width grows by
exactly the initial row's width), and the construction-time input dimensions of
the update MLPs carry the matching factor of 2. -/
theorem reattachment_doubles_update_width (ie cur : Mat) (j : ℕ) (nf : Bool)
    (nOut eOut : ℕ) :
    reattach true ie cur = rowCat ie cur
  ∧ (j < ie.length → j < cur.length →
      ((reattach true ie cur).getD j []).length
        = (ie.getD j []).length + (cur.getD j []).length)
  ∧ edge_factor true = 2
  ∧ node_factor true = 2
  ∧ edge_model_in_dim (node_factor nf) (edge_factor true) nOut eOut
      = node_factor nf * 2 * nOut + 2 * eOut
  ∧ node_model_in_dim (node_factor true) nOut eOut = 2 * nOut + eOut
  ∧ (∀ (w : MOTWeights) (edges : List (ℕ × ℕ)) (inn : Mat) (fcs : ℤ) (step : ℕ)
        (st : LoopState), w.reattachInitialEdges = true →
      (motStep w edges ie inn fcs step st).edgeFeats
        = (metaLayerForward w.edgeMlp w.flowInMlp w.flowOutMlp
            (reattach w.reattachInitialNodes inn st.nodeFeats) edges
            (rowCat ie st.edgeFeats)).2) := by
  refine ⟨rfl, fun h1 h2 => ?_, rfl, rfl, rfl, rfl, fun w edges inn fcs step st hE => ?_⟩
  · rw [show reattach true ie cur = rowCat ie cur from rfl, rowCat_getD ie cur j h1 h2]
    simp
  · by_cases hc : fcs ≤ (step : ℤ) <;> simp [motStep, hE, reattach, hc]

/-- Witness for C8 at a concrete input. -/
theorem reattachment_doubles_update_width_witness :
    ((reattach true sampleEdgeAttr sampleEdgeAttr).getD 0 []).length
        = (sampleEdgeAttr.getD 0 []).length + (sampleEdgeAttr.getD 0 []).length
  ∧ edge_model_in_dim (node_factor false) (edge_factor true) 32 16
        = node_factor false * 2 * 32 + 2 * 16
  ∧ (motStep sampleWeightsReattach sampleEdges sampleEdgeAttr sampleX 2 1
        sampleState).edgeFeats
      = (metaLayerForward sampleWeightsReattach.edgeMlp sampleWeightsReattach.flowInMlp
          sampleWeightsReattach.flowOutMlp
          (reattach sampleWeightsReattach.reattachInitialNodes sampleX sampleState.nodeFeats)
          sampleEdges (rowCat sampleEdgeAttr sampleState.edgeFeats)).2 :=
  ⟨(reattachment_doubles_update_width sampleEdgeAttr sampleEdgeAttr 0 false 32 16).2.1
      (by decide) (by decide),
   (reattachment_doubles_update_width sampleEdgeAttr sampleEdgeAttr 0 false 32 16).2.2.2.2.1,
   (reattachment_doubles_update_width sampleEdgeAttr sampleEdgeAttr 0 false 32
      16).2.2.2.2.2.2 sampleWeightsReattach sampleEdges sampleX 2 1 sampleState rfl⟩

/-- C5 counterexample: in a pre-classification round (step 1, below the
first-class step 5) on the single forward-flow edge `(0, 1)` of a 2-node
graph, with sum aggregation, identity node merge and a constant-`[1]`
forward-flow MLP, the round's new node embedding is `[[1], [0]]`: the
unweighted aggregation placed the edge's message at its *source* node 0, not
`[[0], [1]]` as aggregation per destination (target) node would give —
refuting the claim's "aggregated per destination node". -/
theorem preclassification_aggregation_at_source_counterexample :
    (motStep sampleWeights [(0, 1)] [[0]] [[0], [0]] 5 1 smallState).nodeFeats = [[1], [0]]
  ∧ ¬ (motStep sampleWeights [(0, 1)] [[0]] [[0], [0]] 5 1 smallState).nodeFeats
      = [[0], [1]] := by
  have e1 : ("flow_out" == "flow_out") = true := by decide
  have e2 : ("flow_in" == "flow_out") = false := by decide
  have e3 : ("flow_in" == "flow_in") = true := by decide
  have e4 : ("x_size0" == "flow_out") = false := by decide
  have e5 : ("x_size0" == "flow_in") = false := by decide
  have e6 : ("x_size0" == "x_size0") = true := by decide
  have h : (motStep sampleWeights [(0, 1)] [[0]] [[0], [0]] 5 1 smallState).nodeFeats
      = [[1], [0]] := by
    norm_num [motStep, sampleWeights, smallState, reattach, metaLayerForward,
      timeAwareNodeForward, edgeModelForward, gather, rowCat, lookupMat, lookupNat,
      List.lookup, flowOutRow, flowInRow, nodeAggFn, scatter_add, addLoop, zeros,
      rowWidth, addVec, MLPGraphIndependent.forward, List.replicate_succ,
      e1, e2, e3, e4, e5, e6]
  exact ⟨h, by rw [h]; decide⟩
